import Mathlib

/-!
# Pipeline filters (`src/utils/pipeline/filters.cpp`)

A shallow embedding of the two exported predicates `isValid` and
`isSignificant`, and the properties of their contracts.

The C++ parameters are `float`s.  Two readings of the code are embedded.

* Exact arithmetic (`isValid`, `isSignificant`): the scalar type is an
  arbitrary linearly ordered field `α` (instantiate `α := ℝ` for the reals,
  `α := ℚ` to evaluate).  The literals `0` and `100.0` are the field elements
  `0` and `100`; rounding, infinities and NaN are outside this reading.
* IEEE 754 (`isValidIEEE`, `isSignificantF32`): the values are `Fp α`, which
  may be NaN or infinite, and every `float` operation of `isSignificant` rounds
  its exact result to binary32 (the product with the `double` literal `100.0`
  to binary64, then narrowed), round-to-nearest, ties-to-even.

The `int` result is an `Int`; only the values `0` and `1` are ever produced.
-/

namespace Filters

variable {α : Type*} [LinearOrderedField α]

/-! ## Embedding of the source -/

/-- Simple noise filter (`filters.cpp`, lines 8-12):
```
int isValid(float price, float volume) {
    if (price <= 0) return 0;
    if (volume < 0) return 0;
    return 1;
}
``` -/
def isValid (price volume : α) : Int :=
  if price ≤ 0 then 0
  else if volume < 0 then 0
  else 1

/-- Significant change filter (`filters.cpp`, lines 16-23):
```
int isSignificant(float current, float last, float thresholdPercent) {
    if (last == 0) return 1;
    float diff = current - last;
    if (diff < 0) diff = -diff;
    float change = (diff / last) * 100.0;
    return (change >= thresholdPercent) ? 1 : 0;
}
``` -/
def isSignificant (current last thresholdPercent : α) : Int :=
  if last = 0 then 1
  else
    let diff := current - last
    let diff := if diff < 0 then -diff else diff
    let change := (diff / last) * 100
    if change ≥ thresholdPercent then 1 else 0

/-- The value held by the local variable `change` of `isSignificant` when the
final comparison is executed (lines 18-21 of `filters.cpp`), as a function of
the two arguments it depends on. -/
def isSignificant_change (current last : α) : α :=
  let diff := current - last
  let diff := if diff < 0 then -diff else diff
  (diff / last) * 100

/-- Arithmetic faults of the checked evaluation. -/
inductive ArithError where
  | divByZero
  deriving DecidableEq, Repr

/-- Division that faults on a zero divisor instead of producing a value. -/
def checkedDiv (x y : α) : Except ArithError α :=
  if y = 0 then Except.error ArithError.divByZero else Except.ok (x / y)

/-- The body of `isSignificant` (lines 16-23) with the division `diff / last`
evaluated by `checkedDiv`: the result is `error divByZero` exactly when control
reaches the division with a zero divisor. -/
def isSignificantChecked (current last thresholdPercent : α) : Except ArithError Int :=
  if last = 0 then Except.ok 1
  else
    let diff := current - last
    let diff := if diff < 0 then -diff else diff
    match checkedDiv diff last with
    | Except.error e => Except.error e
    | Except.ok q =>
      let change := q * 100
      Except.ok (if change ≥ thresholdPercent then 1 else 0)

/-! ### Comparisons in the presence of NaN -/

/-- The values of a `float` parameter as far as the comparisons of `isValid`
can tell them apart: NaN, the two infinities and the finite values.  A finite
value is a number of `α`; `-0` and `+0` compare equal under IEEE 754 and are
both `finite 0`. -/
inductive Fp (α : Type*) where
  | nan
  | negInf
  | posInf
  | finite (x : α)

/-- The IEEE 754 comparison `a <= b`: false as soon as an operand is NaN,
otherwise the order of the extended number line. -/
def Fp.le (a b : Fp α) : Bool :=
  match a, b with
  | Fp.nan, _ => false
  | _, Fp.nan => false
  | Fp.negInf, _ => true
  | _, Fp.posInf => true
  | Fp.posInf, _ => false
  | Fp.finite _, Fp.negInf => false
  | Fp.finite x, Fp.finite y => decide (x ≤ y)

/-- The IEEE 754 comparison `a < b`: false as soon as an operand is NaN,
otherwise the strict order of the extended number line. -/
def Fp.lt (a b : Fp α) : Bool :=
  match a, b with
  | Fp.nan, _ => false
  | _, Fp.nan => false
  | Fp.negInf, Fp.negInf => false
  | Fp.negInf, _ => true
  | Fp.posInf, _ => false
  | Fp.finite _, Fp.negInf => false
  | Fp.finite _, Fp.posInf => true
  | Fp.finite x, Fp.finite y => decide (x < y)

/-- The body of `isValid` (`filters.cpp`, lines 8-12) with its two comparisons
read as IEEE 754 comparisons on values that may be NaN or infinite; the
literal `0` is the finite value `0`. -/
def isValidIEEE (price volume : Fp α) : Int :=
  if Fp.le price (Fp.finite 0) then 0
  else if Fp.lt volume (Fp.finite 0) then 0
  else 1

/-! ### Binary32 arithmetic -/

/-- The IEEE 754 comparison `a == b`: false as soon as an operand is NaN,
otherwise equality of the values (`-0` and `+0` are the same value). -/
def Fp.eq (a b : Fp α) : Bool :=
  match a, b with
  | Fp.nan, _ => false
  | _, Fp.nan => false
  | Fp.negInf, Fp.negInf => true
  | Fp.posInf, Fp.posInf => true
  | Fp.finite x, Fp.finite y => decide (x = y)
  | _, _ => false

/-- Unary minus: exact, it only flips the sign. -/
def Fp.neg (a : Fp α) : Fp α :=
  match a with
  | Fp.nan => Fp.nan
  | Fp.negInf => Fp.posInf
  | Fp.posInf => Fp.negInf
  | Fp.finite x => Fp.finite (-x)

/-- The rational `2 ^ e` for an integer exponent `e`. -/
def pow2 (e : Int) : ℚ :=
  if 0 ≤ e then ((2 ^ e.toNat : Nat) : ℚ) else 1 / ((2 ^ (-e).toNat : Nat) : ℚ)

/-- Number of halvings that bring `n` below `2`, at most `fuel` of them. -/
def log2Fuel : Nat → Nat → Nat
  | 0, _ => 0
  | fuel + 1, n => if 2 ≤ n then log2Fuel fuel (n / 2) + 1 else 0

/-- The base-2 logarithm of a natural number, rounded down (`0` at `0`); the
fuel `n` is never used up. -/
def natLog2 (n : Nat) : Nat := log2Fuel n n

/-- For `a > 0`, the integer `e` with `2 ^ e ≤ a < 2 ^ (e + 1)`: the difference
of the logarithms of numerator and denominator, lowered by one when that power
of two is still above `a`. -/
def floorLog2 (a : ℚ) : Int :=
  let e0 : Int := (natLog2 a.num.natAbs : Int) - (natLog2 a.den : Int)
  if pow2 e0 ≤ a then e0 else e0 - 1

/-- Nearest integer, a tie going to the even neighbour. -/
def roundHalfEven (x : ℚ) : Int :=
  let f : Int := ⌊x⌋
  let r : ℚ := x - f
  if r < 1 / 2 then f
  else if 1 / 2 < r then f + 1
  else if f % 2 = 0 then f
  else f + 1

/-- Rounding of the exact result `q` of an operation to the binary format with
`p` significand bits and exponent range `emin .. emax`, in the default mode
round-to-nearest, ties-to-even: `q` is rounded to a multiple of the unit in the
last place of its binade (the subnormal unit below `2 ^ emin`), and a result of
magnitude `2 ^ (emax + 1)` or more overflows to the infinity of its sign. -/
def roundFormat (p : Nat) (emin emax : Int) (q : ℚ) : Fp ℚ :=
  if q = 0 then Fp.finite 0
  else
    let e : Int := max (floorLog2 |q|) emin
    let ulp : ℚ := pow2 (e - ((p : Int) - 1))
    let r : ℚ := (roundHalfEven (q / ulp) : ℚ) * ulp
    if pow2 (emax + 1) ≤ r then Fp.posInf
    else if r ≤ -pow2 (emax + 1) then Fp.negInf
    else Fp.finite r

/-- Rounding to binary32, the format of `float`. -/
def round32 (q : ℚ) : Fp ℚ := roundFormat 24 (-126) 127 q

/-- Rounding to binary64, the format of `double`. -/
def round64 (q : ℚ) : Fp ℚ := roundFormat 53 (-1022) 1023 q

/-- IEEE 754 subtraction `a - b` with the result rounded by `rnd`. -/
def Fp.sub (rnd : ℚ → Fp ℚ) (a b : Fp ℚ) : Fp ℚ :=
  match a, b with
  | Fp.nan, _ => Fp.nan
  | _, Fp.nan => Fp.nan
  | Fp.posInf, Fp.posInf => Fp.nan
  | Fp.negInf, Fp.negInf => Fp.nan
  | Fp.posInf, _ => Fp.posInf
  | Fp.negInf, _ => Fp.negInf
  | Fp.finite _, Fp.posInf => Fp.negInf
  | Fp.finite _, Fp.negInf => Fp.posInf
  | Fp.finite x, Fp.finite y => rnd (x - y)

/-- IEEE 754 division `a / b` with the result rounded by `rnd`.  The sign of a
zero is not tracked, so a zero divisor is taken as `+0`; `isSignificantF32`
never divides by zero. -/
def Fp.div (rnd : ℚ → Fp ℚ) (a b : Fp ℚ) : Fp ℚ :=
  match a, b with
  | Fp.nan, _ => Fp.nan
  | _, Fp.nan => Fp.nan
  | Fp.finite _, Fp.posInf => Fp.finite 0
  | Fp.finite _, Fp.negInf => Fp.finite 0
  | Fp.finite x, Fp.finite y =>
    if y = 0 then (if x = 0 then Fp.nan else if 0 < x then Fp.posInf else Fp.negInf)
    else rnd (x / y)
  | Fp.posInf, Fp.finite y => if 0 ≤ y then Fp.posInf else Fp.negInf
  | Fp.negInf, Fp.finite y => if 0 ≤ y then Fp.negInf else Fp.posInf
  | _, _ => Fp.nan

/-- IEEE 754 multiplication `a * b` with the result rounded by `rnd`. -/
def Fp.mul (rnd : ℚ → Fp ℚ) (a b : Fp ℚ) : Fp ℚ :=
  match a, b with
  | Fp.nan, _ => Fp.nan
  | _, Fp.nan => Fp.nan
  | Fp.finite x, Fp.finite y => rnd (x * y)
  | Fp.finite x, Fp.posInf =>
    if x = 0 then Fp.nan else if 0 < x then Fp.posInf else Fp.negInf
  | Fp.finite x, Fp.negInf =>
    if x = 0 then Fp.nan else if 0 < x then Fp.negInf else Fp.posInf
  | Fp.posInf, Fp.finite y =>
    if y = 0 then Fp.nan else if 0 < y then Fp.posInf else Fp.negInf
  | Fp.negInf, Fp.finite y =>
    if y = 0 then Fp.nan else if 0 < y then Fp.negInf else Fp.posInf
  | Fp.posInf, Fp.posInf => Fp.posInf
  | Fp.negInf, Fp.negInf => Fp.posInf
  | Fp.posInf, Fp.negInf => Fp.negInf
  | Fp.negInf, Fp.posInf => Fp.negInf

/-- Conversion of a `double` to `float`: NaN and the infinities are kept, a
finite value is rounded to binary32. -/
def Fp.narrow32 (a : Fp ℚ) : Fp ℚ :=
  match a with
  | Fp.finite x => round32 x
  | other => other

/-- The value of the local `change` of `isSignificant` in binary32 arithmetic
(lines 18-21): `current - last` and `diff / last` are `float` operations, the
product with the `double` literal `100.0` is a `double` operation on the
(exactly) widened quotient, and the initialisation of `float change` narrows
it. -/
def isSignificantF32_change (current last : Fp ℚ) : Fp ℚ :=
  let diff := Fp.sub round32 current last
  let diff := if Fp.lt diff (Fp.finite 0) then Fp.neg diff else diff
  Fp.narrow32 (Fp.mul round64 (Fp.div round32 diff last) (Fp.finite 100))

/-- The body of `isSignificant` (`filters.cpp`, lines 16-23) in binary32
arithmetic, on `float` values that may be NaN or infinite:
```
if (last == 0) return 1;
float diff = current - last;
if (diff < 0) diff = -diff;
float change = (diff / last) * 100.0;
return (change >= thresholdPercent) ? 1 : 0;
``` -/
def isSignificantF32 (current last thresholdPercent : Fp ℚ) : Int :=
  if Fp.eq last (Fp.finite 0) then 1
  else
    let diff := Fp.sub round32 current last
    let diff := if Fp.lt diff (Fp.finite 0) then Fp.neg diff else diff
    let change := Fp.narrow32 (Fp.mul round64 (Fp.div round32 diff last) (Fp.finite 100))
    if Fp.le thresholdPercent change then 1 else 0

/-- A `float` argument the function can receive: NaN, an infinity, or a finite
value that binary32 rounding leaves unchanged. -/
def Fp.isBinary32 (a : Fp ℚ) : Bool :=
  match a with
  | Fp.finite x => Fp.eq (round32 x) (Fp.finite x)
  | _ => true

/-! ## Auxiliary lemmas -/

/-- The two-step "negate if negative" of the source is the absolute value. -/
theorem negIfNeg_eq_abs (d : α) : (if d < 0 then -d else d) = |d| := by
  split_ifs with h
  · exact (abs_of_neg h).symm
  · exact (abs_of_nonneg (not_lt.mp h)).symm

/-- Closed form of the local `change`. -/
theorem isSignificant_change_eq (current last : α) :
    isSignificant_change current last = |current - last| / last * 100 := by
  simp only [isSignificant_change, negIfNeg_eq_abs]

/-- The function in terms of its guard and its local `change`. -/
theorem isSignificant_unfold (current last thresholdPercent : α) :
    isSignificant current last thresholdPercent =
      if last = 0 then 1
      else if thresholdPercent ≤ isSignificant_change current last then 1 else 0 := by
  simp only [isSignificant, isSignificant_change, ge_iff_le]

/-- With a non-zero reference the verdict is the inclusive comparison of the
percentage change with the threshold. -/
theorem isSignificant_of_ne_zero (current last thresholdPercent : α) (h : last ≠ 0) :
    isSignificant current last thresholdPercent =
      if thresholdPercent ≤ |current - last| / last * 100 then 1 else 0 := by
  rw [isSignificant_unfold, if_neg h, isSignificant_change_eq]

/-- The fault of `checkedDiv` is real: a zero divisor produces it. -/
theorem checkedDiv_zero (x : α) :
    checkedDiv x (0 : α) = Except.error ArithError.divByZero := by
  unfold checkedDiv
  rw [if_pos rfl]

/-- A non-zero divisor produces the quotient. -/
theorem checkedDiv_of_ne_zero (x y : α) (h : y ≠ 0) :
    checkedDiv x y = Except.ok (x / y) := by
  unfold checkedDiv
  rw [if_neg h]

/-- The checked evaluation never faults: the guard returns before the
division whenever the divisor is zero. -/
theorem isSignificantChecked_eq_ok (current last thresholdPercent : α) :
    isSignificantChecked current last thresholdPercent =
      Except.ok (isSignificant current last thresholdPercent) := by
  unfold isSignificantChecked isSignificant
  by_cases h : last = 0
  · simp only [if_pos h]
  · simp only [if_neg h, checkedDiv]

/-- An ordered comparison `<=` with a NaN operand is false. -/
theorem Fp.le_nan_false (x : Fp α) :
    Fp.le Fp.nan x = false ∧ Fp.le x Fp.nan = false := by
  cases x <;> exact ⟨rfl, rfl⟩

/-- An ordered comparison `<` with a NaN operand is false. -/
theorem Fp.lt_nan_false (x : Fp α) :
    Fp.lt Fp.nan x = false ∧ Fp.lt x Fp.nan = false := by
  cases x <;> exact ⟨rfl, rfl⟩

/-- On finite operands the IEEE reading of `isValid` is the exact one. -/
theorem isValidIEEE_finite (price volume : α) :
    isValidIEEE (Fp.finite price) (Fp.finite volume) = isValid price volume := by
  simp only [isValidIEEE, isValid, Fp.le, Fp.lt, decide_eq_true_eq]

/-- The fuel of `natLog2` suffices: it is the library's `Nat.log2`. -/
theorem log2Fuel_eq_log2 (fuel n : Nat) (h : n ≤ fuel) : log2Fuel fuel n = Nat.log2 n := by
  induction fuel generalizing n with
  | zero =>
    have hn : n = 0 := Nat.le_zero.mp h
    subst hn
    rw [Nat.log2]
    rfl
  | succ fuel ih =>
    rw [log2Fuel, Nat.log2]
    by_cases h2 : 2 ≤ n
    · have hhalf : n / 2 ≤ fuel := by omega
      rw [if_pos h2, if_pos h2, ih _ hhalf]
    · rw [if_neg h2, if_neg h2]

/-- The structural logarithm agrees with `Nat.log2` on every input. -/
theorem natLog2_eq_log2 (n : Nat) : natLog2 n = Nat.log2 n :=
  log2Fuel_eq_log2 n n le_rfl

/-- The value of `pow2` is the integer power of two. -/
theorem pow2_eq_zpow (e : Int) : pow2 e = (2 : ℚ) ^ e := by
  unfold pow2
  split_ifs with h
  · lift e to ℕ using h
    simp
  · obtain ⟨n, hn⟩ := Int.eq_ofNat_of_zero_le (show (0 : Int) ≤ -e by omega)
    have he : e = -(n : Int) := by omega
    subst he
    simp

/-- Every power of two is positive. -/
theorem pow2_pos (e : Int) : 0 < pow2 e := by
  rw [pow2_eq_zpow]
  positivity

/-- For `a > 0`, `floorLog2 a` is the exponent of the binade of `a`:
`2 ^ floorLog2 a ≤ a < 2 ^ (floorLog2 a + 1)`. -/
theorem floorLog2_spec (a : ℚ) (ha : 0 < a) :
    pow2 (floorLog2 a) ≤ a ∧ a < pow2 (floorLog2 a + 1) := by
  have hnum : 0 < a.num := Rat.num_pos.mpr ha
  have hn0 : a.num.natAbs ≠ 0 := by omega
  have hd0 : a.den ≠ 0 := a.den_nz
  have hval : a = (a.num.natAbs : ℚ) / (a.den : ℚ) := by
    have h1 : ((a.num.natAbs : ℕ) : ℚ) = (a.num : ℚ) := by
      rw [Nat.cast_natAbs, abs_of_pos hnum]
    rw [h1, Rat.num_div_den]
  have hn1 : ((2 : ℚ) ^ (Nat.log2 a.num.natAbs)) ≤ (a.num.natAbs : ℚ) := by
    exact_mod_cast Nat.log2_self_le hn0
  have hn2 : (a.num.natAbs : ℚ) < (2 : ℚ) ^ (Nat.log2 a.num.natAbs + 1) := by
    exact_mod_cast (Nat.lt_log2_self : a.num.natAbs < 2 ^ (Nat.log2 a.num.natAbs + 1))
  have hd1 : ((2 : ℚ) ^ (Nat.log2 a.den)) ≤ (a.den : ℚ) := by
    exact_mod_cast Nat.log2_self_le hd0
  have hd2 : (a.den : ℚ) < (2 : ℚ) ^ (Nat.log2 a.den + 1) := by
    exact_mod_cast (Nat.lt_log2_self : a.den < 2 ^ (Nat.log2 a.den + 1))
  have hdpos : (0 : ℚ) < (a.den : ℚ) := by exact_mod_cast a.den_pos
  have h2 : (2 : ℚ) ≠ 0 := by norm_num
  have hlow : pow2 ((Nat.log2 a.num.natAbs : Int) - (Nat.log2 a.den : Int) - 1) ≤ a := by
    rw [pow2_eq_zpow, sub_sub, zpow_sub₀ h2]
    have hden : (2 : ℚ) ^ ((Nat.log2 a.den : Int) + 1) = (2 : ℚ) ^ (Nat.log2 a.den + 1) := by
      exact_mod_cast zpow_natCast (2 : ℚ) (Nat.log2 a.den + 1)
    rw [hden, zpow_natCast]
    calc (2 : ℚ) ^ (Nat.log2 a.num.natAbs) / (2 : ℚ) ^ (Nat.log2 a.den + 1)
        ≤ (a.num.natAbs : ℚ) / (2 : ℚ) ^ (Nat.log2 a.den + 1) :=
          div_le_div_of_nonneg_right hn1 (by positivity)
      _ ≤ (a.num.natAbs : ℚ) / (a.den : ℚ) :=
          div_le_div_of_nonneg_left (by positivity) hdpos hd2.le
      _ = a := hval.symm
  have hupp : a < pow2 ((Nat.log2 a.num.natAbs : Int) - (Nat.log2 a.den : Int) + 1) := by
    rw [pow2_eq_zpow, sub_add_eq_add_sub, zpow_sub₀ h2]
    have hnumr : (2 : ℚ) ^ ((Nat.log2 a.num.natAbs : Int) + 1) =
        (2 : ℚ) ^ (Nat.log2 a.num.natAbs + 1) := by
      exact_mod_cast zpow_natCast (2 : ℚ) (Nat.log2 a.num.natAbs + 1)
    rw [hnumr, zpow_natCast]
    calc a = (a.num.natAbs : ℚ) / (a.den : ℚ) := hval
      _ < (2 : ℚ) ^ (Nat.log2 a.num.natAbs + 1) / (a.den : ℚ) :=
          div_lt_div_of_pos_right hn2 hdpos
      _ ≤ (2 : ℚ) ^ (Nat.log2 a.num.natAbs + 1) / (2 : ℚ) ^ (Nat.log2 a.den) :=
          div_le_div_of_nonneg_left (by positivity) (by positivity) hd1
  unfold floorLog2
  simp only [natLog2_eq_log2]
  split_ifs with h
  · exact ⟨h, hupp⟩
  · refine ⟨hlow, ?_⟩
    rw [sub_add_cancel]
    exact not_le.mp h

/-- The integer chosen by `roundHalfEven` is within one half of its argument. -/
theorem roundHalfEven_spec (x : ℚ) : |x - (roundHalfEven x : ℚ)| ≤ 1 / 2 := by
  have hfl : ((⌊x⌋ : Int) : ℚ) ≤ x := Int.floor_le x
  have hfu : x < ((⌊x⌋ : Int) : ℚ) + 1 := Int.lt_floor_add_one x
  unfold roundHalfEven
  simp only
  rw [abs_le]
  split_ifs <;> push_cast <;> constructor <;> linarith

/-- A finite result of `roundFormat` is an integer multiple of the unit in the
last place of the binade of `q` and lies within half a unit of `q`. -/
theorem roundFormat_finite_spec (p : Nat) (emin emax : Int) (q x : ℚ)
    (h : roundFormat p emin emax q = Fp.finite x) :
    ∃ n : Int, x = (n : ℚ) * pow2 (max (floorLog2 |q|) emin - ((p : Int) - 1)) ∧
      |q - x| ≤ pow2 (max (floorLog2 |q|) emin - ((p : Int) - 1)) / 2 := by
  unfold roundFormat at h
  by_cases hq : q = 0
  · rw [if_pos hq] at h
    have hx : x = 0 := by
      injection h with h'
      exact h'.symm
    refine ⟨0, by simp [hx], ?_⟩
    rw [hq, hx, sub_zero, abs_zero]
    exact (half_pos (pow2_pos _)).le
  · rw [if_neg hq] at h
    simp only at h
    split_ifs at h
    have hx : x = (roundHalfEven (q / pow2 (max (floorLog2 |q|) emin - ((p : Int) - 1))) : ℚ) *
        pow2 (max (floorLog2 |q|) emin - ((p : Int) - 1)) := by
      injection h with h'
      exact h'.symm
    refine ⟨_, hx, ?_⟩
    have hu := pow2_pos (max (floorLog2 |q|) emin - ((p : Int) - 1))
    have hs := roundHalfEven_spec (q / pow2 (max (floorLog2 |q|) emin - ((p : Int) - 1)))
    have hfac : q - x = (q / pow2 (max (floorLog2 |q|) emin - ((p : Int) - 1)) -
        (roundHalfEven (q / pow2 (max (floorLog2 |q|) emin - ((p : Int) - 1))) : ℚ)) *
        pow2 (max (floorLog2 |q|) emin - ((p : Int) - 1)) := by
      rw [hx, sub_mul, div_mul_cancel₀ _ hu.ne']
    rw [hfac, abs_mul, abs_of_pos hu]
    calc _ ≤ 1 / 2 * pow2 (max (floorLog2 |q|) emin - ((p : Int) - 1)) :=
          mul_le_mul_of_nonneg_right hs hu.le
      _ = pow2 (max (floorLog2 |q|) emin - ((p : Int) - 1)) / 2 := by ring

/-- Zero is representable in every format: rounding leaves it unchanged. -/
theorem roundFormat_zero (p : Nat) (emin emax : Int) :
    roundFormat p emin emax 0 = Fp.finite 0 := by
  unfold roundFormat
  rw [if_pos rfl]

/-- Binary32 rounding on sample values: a representable value, the two sides
of a tie at `2 ^ 24`, the quotient `53 / 100`, the overflow threshold and the
subnormal tie at `2 ^ (-150)`. -/
theorem round32_samples :
    Fp.eq (round32 153) (Fp.finite 153) = true ∧
    Fp.eq (round32 16777217) (Fp.finite 16777216) = true ∧
    Fp.eq (round32 16777219) (Fp.finite 16777220) = true ∧
    Fp.eq (round32 (53 / 100)) (Fp.finite (8891924 / 16777216)) = true ∧
    Fp.eq (round32 (2 ^ 128 - 2 ^ 103)) Fp.posInf = true ∧
    Fp.eq (round32 (2 ^ 128 - 2 ^ 103 - 1)) (Fp.finite (2 ^ 128 - 2 ^ 104)) = true ∧
    Fp.eq (round32 (1 / 2 ^ 150)) (Fp.finite 0) = true ∧
    Fp.eq (round32 (3 / 2 ^ 150)) (Fp.finite (1 / 2 ^ 148)) = true := by
  decide!

/-- An IEEE equality gives the inclusive comparison `b <= a`. -/
theorem Fp.le_of_eq_true (a b : Fp α) (h : Fp.eq a b = true) : Fp.le b a = true := by
  cases a <;> cases b <;> simp_all [Fp.eq, Fp.le]

/-- A value strictly above `0` is not `<= 0`. -/
theorem Fp.le_zero_false_of_pos (t : Fp ℚ) (h : Fp.lt (Fp.finite 0) t = true) :
    Fp.le t (Fp.finite 0) = false := by
  cases t <;> simp_all [Fp.lt, Fp.le]

/-- The function in terms of its guard and its local `change`, in binary32. -/
theorem isSignificantF32_unfold (current last thresholdPercent : Fp ℚ) :
    isSignificantF32 current last thresholdPercent =
      if Fp.eq last (Fp.finite 0) then 1
      else if Fp.le thresholdPercent (isSignificantF32_change current last) then 1 else 0 := by
  simp only [isSignificantF32, isSignificantF32_change]

/-- An unchanged finite non-zero value has the change `0`: the difference is
exactly `0` and stays `0` through the division and the product. -/
theorem isSignificantF32_change_self_finite (x : ℚ) (hx : x ≠ 0) :
    isSignificantF32_change (Fp.finite x) (Fp.finite x) = Fp.finite 0 := by
  simp [isSignificantF32_change, Fp.sub, Fp.div, Fp.mul, Fp.narrow32, Fp.lt, round32, round64,
    roundFormat_zero, hx]

/-- An unchanged infinite or NaN value has the change NaN: `inf - inf` and
`NaN - NaN` are NaN. -/
theorem isSignificantF32_change_self_nonfinite :
    isSignificantF32_change Fp.nan Fp.nan = Fp.nan ∧
    isSignificantF32_change Fp.posInf Fp.posInf = Fp.nan ∧
    isSignificantF32_change Fp.negInf Fp.negInf = Fp.nan := by
  refine ⟨?_, ?_, ?_⟩ <;>
    simp [isSignificantF32_change, Fp.sub, Fp.div, Fp.mul, Fp.narrow32, Fp.lt]

/-- An IEEE equality with a finite value is equality of the values. -/
theorem Fp.eq_finite_true (a : Fp ℚ) (x : ℚ) (h : Fp.eq a (Fp.finite x) = true) :
    a = Fp.finite x := by
  cases a <;> simp_all [Fp.eq]

/-- When no operation rounds, the binary32 evaluation is the exact one: if the
difference, the quotient and the product are representable, `isSignificantF32`
on finite arguments is `isSignificant`. -/
theorem isSignificantF32_eq_exact (current last thresholdPercent : ℚ)
    (hsub : Fp.eq (round32 (current - last)) (Fp.finite (current - last)) = true)
    (hdiv : Fp.eq (round32 (|current - last| / last))
      (Fp.finite (|current - last| / last)) = true)
    (hmul : Fp.eq (round64 (|current - last| / last * 100))
      (Fp.finite (|current - last| / last * 100)) = true)
    (hnar : Fp.eq (round32 (|current - last| / last * 100))
      (Fp.finite (|current - last| / last * 100)) = true) :
    isSignificantF32 (Fp.finite current) (Fp.finite last) (Fp.finite thresholdPercent) =
      isSignificant current last thresholdPercent := by
  have hsub := Fp.eq_finite_true _ _ hsub
  have hdiv := Fp.eq_finite_true _ _ hdiv
  have hmul := Fp.eq_finite_true _ _ hmul
  have hnar := Fp.eq_finite_true _ _ hnar
  by_cases hl : last = 0
  · simp [isSignificantF32, isSignificant, Fp.eq, hl]
  · have hchange : isSignificantF32_change (Fp.finite current) (Fp.finite last) =
        Fp.finite (|current - last| / last * 100) := by
      simp only [isSignificantF32_change, Fp.sub, hsub, Fp.lt]
      by_cases hneg : current - last < 0
      · rw [abs_of_neg hneg] at hdiv hmul hnar ⊢
        simp only [hneg, decide_True, if_true, Fp.neg, Fp.div, if_neg hl, hdiv, Fp.mul, hmul,
          Fp.narrow32, hnar]
      · rw [abs_of_nonneg (not_lt.mp hneg)] at hdiv hmul hnar ⊢
        simp only [hneg, decide_False, Bool.false_eq_true, if_false, Fp.div, if_neg hl, hdiv,
          Fp.mul, hmul, Fp.narrow32, hnar]
    rw [isSignificantF32_unfold, hchange, isSignificant_of_ne_zero _ _ _ hl]
    simp [Fp.eq, Fp.le, hl]

/-- The exact and the binary32 evaluation agree at `(150, 100, 50)`, where no
operation rounds. -/
theorem isSignificantF32_eq_exact_sample :
    isSignificantF32 (Fp.finite 150) (Fp.finite 100) (Fp.finite 50) =
      isSignificant (150 : ℚ) 100 50 :=
  isSignificantF32_eq_exact 150 100 50 (by decide!) (by decide!) (by decide!) (by decide!)

/-! ## ValidityFilter -/

/-- C1: a price `≤ 0` (whatever the volume) or a volume `< 0` (whatever the
price) is rejected as noise: `isValid` returns `0`. -/
theorem isValid_rejects (price volume : α) (h : price ≤ 0 ∨ volume < 0) :
    isValid price volume = 0 := by
  unfold isValid
  rcases h with h | h
  · rw [if_pos h]
  · rw [if_pos h, ite_self]

/-- The rejection theorem at a non-positive price and at a negative volume. -/
theorem isValid_rejects_witness :
    (((-1 : ℚ) ≤ 0 ∨ (5 : ℚ) < 0) ∧ isValid (-1 : ℚ) 5 = 0) ∧
    (((2 : ℚ) ≤ 0 ∨ (-3 : ℚ) < 0) ∧ isValid (2 : ℚ) (-3) = 0) :=
  ⟨⟨Or.inl (by norm_num), isValid_rejects (-1) 5 (Or.inl (by norm_num))⟩,
   ⟨Or.inr (by norm_num), isValid_rejects 2 (-3) (Or.inr (by norm_num))⟩⟩

/-- C2: a price `> 0` with a volume `≥ 0` is accepted: `isValid` returns `1`.
In particular a zero volume is accepted for every positive price, while a zero
price is rejected whatever the volume `w`. -/
theorem isValid_accepts (price volume w : α) (hp : 0 < price) (hv : 0 ≤ volume) :
    isValid price volume = 1 ∧ isValid price 0 = 1 ∧ isValid (0 : α) w = 0 := by
  refine ⟨?_, ?_, ?_⟩
  · unfold isValid
    rw [if_neg (not_le.mpr hp), if_neg (not_lt.mpr hv)]
  · unfold isValid
    rw [if_neg (not_le.mpr hp), if_neg (lt_irrefl 0)]
  · unfold isValid
    rw [if_pos le_rfl]

/-- The acceptance theorem at price `7/2`, volume `4`, and zero price with
volume `12`. -/
theorem isValid_accepts_witness :
    (0 : ℚ) < 7 / 2 ∧ (0 : ℚ) ≤ 4 ∧
      isValid (7 / 2 : ℚ) 4 = 1 ∧ isValid (7 / 2 : ℚ) 0 = 1 ∧ isValid (0 : ℚ) 12 = 0 :=
  ⟨by norm_num, by norm_num, isValid_accepts (7 / 2) 4 12 (by norm_num) (by norm_num)⟩

/-! ## SignificanceFilter -/

/-- C3: a zero reference value is unconditionally significant:
`isSignificant current 0 thresholdPercent` returns `1` for every `current` and
every `thresholdPercent`. -/
theorem isSignificant_zero_last (current thresholdPercent : α) :
    isSignificant current 0 thresholdPercent = 1 := by
  unfold isSignificant
  rw [if_pos rfl]

/-- C4: for `last ≠ 0`, over exact arithmetic, `isSignificant` returns `1` if
and only if `(|current - last| / last) * 100 ≥ thresholdPercent`, and `0` if
and only if not (only the numerator is made absolute).  Moreover
`isSignificant 110 100 5 = 1`, `isSignificant 102 100 5 = 0` and
`isSignificant 90 100 5 = 1`. -/
theorem isSignificant_iff (current last thresholdPercent : α) (h : last ≠ 0) :
    (isSignificant current last thresholdPercent = 1 ↔
        |current - last| / last * 100 ≥ thresholdPercent) ∧
    (isSignificant current last thresholdPercent = 0 ↔
        ¬ (|current - last| / last * 100 ≥ thresholdPercent)) ∧
    isSignificant (110 : α) 100 5 = 1 ∧
    isSignificant (102 : α) 100 5 = 0 ∧
    isSignificant (90 : α) 100 5 = 1 := by
  refine ⟨?_, ?_, ?_, ?_, ?_⟩
  · rw [isSignificant_of_ne_zero _ _ _ h]
    split_ifs with hc
    · exact ⟨fun _ => hc, fun _ => rfl⟩
    · exact ⟨fun h01 => absurd h01 (by decide), fun hge => absurd hge hc⟩
  · rw [isSignificant_of_ne_zero _ _ _ h]
    split_ifs with hc
    · exact ⟨fun h10 => absurd h10 (by decide), fun hn => absurd hc hn⟩
    · exact ⟨fun _ => hc, fun _ => rfl⟩
  · norm_num [isSignificant]
  · norm_num [isSignificant]
  · norm_num [isSignificant]

/-- The characterisation at `current = 110`, `last = 100`, threshold `5`. -/
theorem isSignificant_iff_witness :
    (100 : ℚ) ≠ 0 ∧
    (isSignificant (110 : ℚ) 100 5 = 1 ↔ |(110 : ℚ) - 100| / 100 * 100 ≥ 5) :=
  ⟨by norm_num, (isSignificant_iff (110 : ℚ) 100 5 (by norm_num)).1⟩

/-- C5, as stated, fails in binary32.  At the `float` arguments
`(153, 100, 53)` the reference is not `0` and `(|153 - 100| / 100) * 100` is
exactly `53`, the threshold; but the quotient `53 / 100` is rounded and the
computed `change` is `13893631 / 262144 < 53`, so the code returns `0`. -/
theorem isSignificantF32_exact_tie_returns_zero :
    Fp.isBinary32 (Fp.finite 153) = true ∧
    Fp.isBinary32 (Fp.finite 100) = true ∧
    Fp.isBinary32 (Fp.finite 53) = true ∧
    (100 : ℚ) ≠ 0 ∧
    |(153 : ℚ) - 100| / 100 * 100 = 53 ∧
    Fp.eq (isSignificantF32_change (Fp.finite 153) (Fp.finite 100))
      (Fp.finite (13893631 / 262144)) = true ∧
    isSignificantF32 (Fp.finite 153) (Fp.finite 100) (Fp.finite 53) = 0 := by
  refine ⟨?_, ?_, ?_, ?_, ?_, ?_, ?_⟩
  · decide!
  · decide!
  · decide!
  · norm_num
  · norm_num
  · decide!
  · decide!

/-- C5 (amended): inclusive tie-break on the computed change.  For every
`current`, every `last` with `last == 0` false and every `thresholdPercent`,
when the `change` that the code computes in `float` arithmetic compares equal
to `thresholdPercent`, `isSignificant` returns `1`; and
`isSignificant(105, 100, 5) = 1`. -/
theorem isSignificantF32_tie (current last thresholdPercent : Fp ℚ)
    (hl : Fp.eq last (Fp.finite 0) = false)
    (heq : Fp.eq (isSignificantF32_change current last) thresholdPercent = true) :
    isSignificantF32 current last thresholdPercent = 1 ∧
    isSignificantF32 (Fp.finite 105) (Fp.finite 100) (Fp.finite 5) = 1 := by
  constructor
  · rw [isSignificantF32_unfold, hl, Fp.le_of_eq_true _ _ heq]
    rfl
  · decide!

/-- The tie-break theorem at `(105, 100, 5)`, where the computed change is
exactly `5`. -/
theorem isSignificantF32_tie_witness :
    Fp.eq (Fp.finite (100 : ℚ)) (Fp.finite 0) = false ∧
    Fp.eq (isSignificantF32_change (Fp.finite 105) (Fp.finite 100)) (Fp.finite 5) = true ∧
    isSignificantF32 (Fp.finite 105) (Fp.finite 100) (Fp.finite 5) = 1 :=
  ⟨by decide!, by decide!,
    (isSignificantF32_tie (Fp.finite 105) (Fp.finite 100) (Fp.finite 5)
      (by decide!) (by decide!)).1⟩

/-- C6: the source comment promises `1` only when the change is strictly
greater than the threshold.  The code returns `1` on exact ties: at
`(150, 100, 50)` and at `(105, 100, 5)` the local `change` equals the threshold
(so it is not strictly greater) and `isSignificant` returns `1`, not `0`. -/
theorem isSignificant_tie_returns_one :
    isSignificant (150 : ℚ) 100 50 = 1 ∧
    isSignificant_change (150 : ℚ) 100 = 50 ∧
    ¬ (isSignificant_change (150 : ℚ) 100 > 50) ∧
    isSignificant (105 : ℚ) 100 5 = 1 ∧
    isSignificant_change (105 : ℚ) 100 = 5 ∧
    ¬ (isSignificant_change (105 : ℚ) 100 > 5) := by
  refine ⟨?_, ?_, ?_, ?_, ?_, ?_⟩ <;> norm_num [isSignificant, isSignificant_change]

/-- C7: negative-reference quirk.  For `last < 0` and `thresholdPercent > 0`,
`isSignificant` returns `0`, because the local `change` is never positive when
`last` is negative.  At `(90, -100, 5)` the result is `0` and `change` is the
literal `-190`. -/
theorem isSignificant_negative_last (current last thresholdPercent : α)
    (hl : last < 0) (ht : 0 < thresholdPercent) :
    isSignificant current last thresholdPercent = 0 ∧
    isSignificant_change current last ≤ 0 ∧
    isSignificant (90 : α) (-100) 5 = 0 ∧
    isSignificant_change (90 : α) (-100) = -190 := by
  have hchange : isSignificant_change current last ≤ 0 := by
    rw [isSignificant_change_eq]
    exact mul_nonpos_of_nonpos_of_nonneg
      (div_nonpos_of_nonneg_of_nonpos (abs_nonneg _) hl.le) (by norm_num)
  refine ⟨?_, hchange, ?_, ?_⟩
  · rw [isSignificant_unfold, if_neg hl.ne, if_neg (not_le.mpr (lt_of_le_of_lt hchange ht))]
  · norm_num [isSignificant]
  · norm_num [isSignificant_change]

/-- The quirk at `current = 90`, `last = -100`, threshold `5`. -/
theorem isSignificant_negative_last_witness :
    (-100 : ℚ) < 0 ∧ (0 : ℚ) < 5 ∧
    isSignificant (90 : ℚ) (-100) 5 = 0 ∧
    isSignificant_change (90 : ℚ) (-100) ≤ 0 :=
  ⟨by norm_num, by norm_num,
    (isSignificant_negative_last (90 : ℚ) (-100) 5 (by norm_num) (by norm_num)).1,
    (isSignificant_negative_last (90 : ℚ) (-100) 5 (by norm_num) (by norm_num)).2.1⟩

/-- C8: `isSignificant` never divides by zero.  Evaluated with a division that
faults on a zero divisor, the body yields a value on every input, namely the
result of `isSignificant`, and never the fault `divByZero`. -/
theorem isSignificant_never_divides_by_zero (current last thresholdPercent : α) :
    isSignificantChecked current last thresholdPercent =
        Except.ok (isSignificant current last thresholdPercent) ∧
    isSignificantChecked current last thresholdPercent ≠
        Except.error ArithError.divByZero := by
  have h := isSignificantChecked_eq_ok current last thresholdPercent
  refine ⟨h, ?_⟩
  rw [h]
  intro hbad
  cases hbad

/-- C9: on every input `isValid` and `isSignificant` each return exactly `0` or
exactly `1`. -/
theorem filters_return_zero_or_one (price volume current last thresholdPercent : α) :
    (isValid price volume = 0 ∨ isValid price volume = 1) ∧
    (isSignificant current last thresholdPercent = 0 ∨
      isSignificant current last thresholdPercent = 1) := by
  constructor
  · unfold isValid
    split_ifs
    · exact Or.inl rfl
    · exact Or.inl rfl
    · exact Or.inr rfl
  · rw [isSignificant_unfold]
    split_ifs
    · exact Or.inr rfl
    · exact Or.inr rfl
    · exact Or.inl rfl

/-! ## NaN classification and relational properties -/

/-- C11: under IEEE 754 comparison semantics a NaN price is classified valid.
For every volume that is not strictly negative (`volume < 0` is false, which
includes a NaN volume), `isValid` on a NaN price returns `1`; in particular it
returns `1` on a NaN price with a NaN volume. -/
theorem isValidIEEE_nan_price (volume : Fp α)
    (h : Fp.lt volume (Fp.finite 0) = false) :
    isValidIEEE Fp.nan volume = 1 ∧ isValidIEEE (Fp.nan : Fp α) Fp.nan = 1 := by
  have hle : Fp.le (Fp.nan : Fp α) (Fp.finite 0) = false := rfl
  have hnan : Fp.lt (Fp.nan : Fp α) (Fp.finite 0) = false := rfl
  constructor
  · simp only [isValidIEEE, hle, h, Bool.false_eq_true, if_false]
  · simp only [isValidIEEE, hle, hnan, Bool.false_eq_true, if_false]

/-- The NaN-price theorem at a NaN volume, at the finite volumes `0` and `3`,
and at an infinite volume. -/
theorem isValidIEEE_nan_price_witness :
    (Fp.lt (Fp.nan : Fp ℚ) (Fp.finite 0) = false ∧
      isValidIEEE (Fp.nan : Fp ℚ) Fp.nan = 1) ∧
    (Fp.lt (Fp.finite 0 : Fp ℚ) (Fp.finite 0) = false ∧
      isValidIEEE (Fp.nan : Fp ℚ) (Fp.finite 0) = 1) ∧
    (Fp.lt (Fp.finite 3 : Fp ℚ) (Fp.finite 0) = false ∧
      isValidIEEE (Fp.nan : Fp ℚ) (Fp.finite 3) = 1) ∧
    (Fp.lt (Fp.posInf : Fp ℚ) (Fp.finite 0) = false ∧
      isValidIEEE (Fp.nan : Fp ℚ) Fp.posInf = 1) :=
  ⟨⟨rfl, (isValidIEEE_nan_price (Fp.nan : Fp ℚ) rfl).1⟩,
   ⟨by simp [Fp.lt], (isValidIEEE_nan_price (Fp.finite 0 : Fp ℚ) (by simp [Fp.lt])).1⟩,
   ⟨by simp [Fp.lt], (isValidIEEE_nan_price (Fp.finite 3 : Fp ℚ) (by simp [Fp.lt])).1⟩,
   ⟨rfl, (isValidIEEE_nan_price (Fp.posInf : Fp ℚ) rfl).1⟩⟩

/-- C12: `isSignificant` is antitone in the threshold.  For `t1 ≤ t2`, if
`isSignificant current last t2` returns `1` then so does
`isSignificant current last t1`. -/
theorem isSignificant_antitone_threshold (current last t1 t2 : α) (h12 : t1 ≤ t2)
    (h : isSignificant current last t2 = 1) :
    isSignificant current last t1 = 1 := by
  rw [isSignificant_unfold] at h ⊢
  by_cases hl : last = 0
  · rw [if_pos hl]
  · rw [if_neg hl] at h ⊢
    by_cases h2 : t2 ≤ isSignificant_change current last
    · rw [if_pos (le_trans h12 h2)]
    · rw [if_neg h2] at h
      exact absurd h (by decide)

/-- Antitonicity at `(110, 100)` with the thresholds `3 ≤ 5`. -/
theorem isSignificant_antitone_threshold_witness :
    (3 : ℚ) ≤ 5 ∧ isSignificant (110 : ℚ) 100 5 = 1 ∧ isSignificant (110 : ℚ) 100 3 = 1 :=
  ⟨by norm_num, by norm_num [isSignificant],
    isSignificant_antitone_threshold (110 : ℚ) 100 3 5 (by norm_num)
      (by norm_num [isSignificant])⟩

/-- C13, as stated, fails for a reference that is infinite or NaN.  For
`last = +inf`, `-inf` or NaN the test `last == 0` is false, the difference
`last - last` is NaN, and `isSignificant(last, last, 0)` returns `0`, not
`1`. -/
theorem isSignificantF32_unchanged_nonfinite :
    (Fp.eq (Fp.posInf : Fp ℚ) (Fp.finite 0) = false ∧
      isSignificantF32 Fp.posInf Fp.posInf (Fp.finite 0) = 0) ∧
    (Fp.eq (Fp.negInf : Fp ℚ) (Fp.finite 0) = false ∧
      isSignificantF32 Fp.negInf Fp.negInf (Fp.finite 0) = 0) ∧
    (Fp.eq (Fp.nan : Fp ℚ) (Fp.finite 0) = false ∧
      isSignificantF32 Fp.nan Fp.nan (Fp.finite 0) = 0) := by
  decide

/-- C13 (amended): an unchanged value is never significant against a positive
threshold.  For every `last` with `last == 0` false (infinite and NaN
included) and every `thresholdPercent > 0`,
`isSignificant(last, last, thresholdPercent)` returns `0`; and for every
finite `x ≠ 0`, `isSignificant(x, x, 0)` returns `1`. -/
theorem isSignificantF32_unchanged (last thresholdPercent : Fp ℚ) (x : ℚ)
    (hl : Fp.eq last (Fp.finite 0) = false)
    (ht : Fp.lt (Fp.finite 0) thresholdPercent = true) (hx : x ≠ 0) :
    isSignificantF32 last last thresholdPercent = 0 ∧
    isSignificantF32 (Fp.finite x) (Fp.finite x) (Fp.finite 0) = 1 := by
  constructor
  · rw [isSignificantF32_unfold, hl]
    cases last with
    | nan =>
      rw [isSignificantF32_change_self_nonfinite.1, (Fp.le_nan_false thresholdPercent).2]
      rfl
    | posInf =>
      rw [isSignificantF32_change_self_nonfinite.2.1, (Fp.le_nan_false thresholdPercent).2]
      rfl
    | negInf =>
      rw [isSignificantF32_change_self_nonfinite.2.2, (Fp.le_nan_false thresholdPercent).2]
      rfl
    | finite y =>
      have hy : y ≠ 0 := by simpa [Fp.eq] using hl
      rw [isSignificantF32_change_self_finite y hy, Fp.le_zero_false_of_pos _ ht]
      rfl
  · have hg : Fp.eq (Fp.finite x) (Fp.finite 0) = false := by simp [Fp.eq, hx]
    rw [isSignificantF32_unfold, hg, isSignificantF32_change_self_finite x hx]
    simp [Fp.le]

/-- The unchanged value `100` against the thresholds `5` and `0`. -/
theorem isSignificantF32_unchanged_witness :
    Fp.eq (Fp.finite (100 : ℚ)) (Fp.finite 0) = false ∧
    Fp.lt (Fp.finite (0 : ℚ)) (Fp.finite 5) = true ∧ (100 : ℚ) ≠ 0 ∧
    isSignificantF32 (Fp.finite 100) (Fp.finite 100) (Fp.finite 5) = 0 ∧
    isSignificantF32 (Fp.finite 100) (Fp.finite 100) (Fp.finite 0) = 1 :=
  ⟨by decide!, by decide!, by norm_num,
    isSignificantF32_unchanged (Fp.finite 100) (Fp.finite 5) 100
      (by decide!) (by decide!) (by norm_num)⟩

/-- C14: direction symmetry over exact arithmetic.  For every `last`, `d` and
`thresholdPercent`, `isSignificant (last + d) last thresholdPercent` equals
`isSignificant (last - d) last thresholdPercent`. -/
theorem isSignificant_direction_symm (last d thresholdPercent : α) :
    isSignificant (last + d) last thresholdPercent =
      isSignificant (last - d) last thresholdPercent := by
  have hup : last + d - last = d := by ring
  have hdown : last - d - last = -d := by ring
  rw [isSignificant_unfold, isSignificant_unfold, isSignificant_change_eq,
    isSignificant_change_eq, hup, hdown, abs_neg]

/-- C15: positive scale invariance over exact arithmetic.  For every `k > 0`,
`isSignificant (k * current) (k * last) thresholdPercent` equals
`isSignificant current last thresholdPercent`. -/
theorem isSignificant_scale_invariant (k current last thresholdPercent : α)
    (hk : 0 < k) :
    isSignificant (k * current) (k * last) thresholdPercent =
      isSignificant current last thresholdPercent := by
  have hk0 : k ≠ 0 := ne_of_gt hk
  by_cases hl : last = 0
  · rw [hl, mul_zero, isSignificant_unfold, isSignificant_unfold, if_pos rfl, if_pos rfl]
  · have hkl : k * last ≠ 0 := mul_ne_zero hk0 hl
    have hratio : |k * current - k * last| / (k * last) = |current - last| / last := by
      rw [← mul_sub, abs_mul, abs_of_pos hk, mul_div_mul_left _ _ hk0]
    rw [isSignificant_of_ne_zero _ _ _ hkl, isSignificant_of_ne_zero _ _ _ hl, hratio]

/-- Scale invariance with `k = 3` at `(110, 100, 5)`. -/
theorem isSignificant_scale_invariant_witness :
    (0 : ℚ) < 3 ∧
    isSignificant ((3 : ℚ) * 110) (3 * 100) 5 = isSignificant (110 : ℚ) 100 5 :=
  ⟨by norm_num, isSignificant_scale_invariant (3 : ℚ) 110 100 5 (by norm_num)⟩

end Filters
